import Mathlib

/-!
Verification development for the `areaMap.py` analytics dashboard.

The program is a single linear pipeline: fetch JSON records, flatten the
nested `geocode` structure into `lat`/`lon` columns, drop rows with missing
coordinates, derive a tooltip string and an RGBA color per row, and render
a table, CSV export, metrics and a map.

The shallow embedding below models:
  * a JSON record (`QueryRecord`) as delivered by the API, where the
    `geocode` cell distinguishes three states exactly as pandas does after
    `pd.DataFrame(data)`: key absent in the source object (a NaN cell),
    key present with JSON null (a `None` cell), key present with a
    structure (a dict cell);
  * the two extraction lambdas of lines 40-41 (`lam_lat` / `lam_lon`);
  * the sequential halting control flow of lines 26-48 (`pipeline` /
    `normalize`), including the fact that applying the extraction lambda
    to a NaN cell raises an uncaught `TypeError` in Python
    (`"lat" in x` on a float), modelled by `Outcome.crashed`;
  * the presenter (tooltip assembly of lines 60-68, color of line 70);
  * the renderer-side metrics (lines 105-109) and the CSV export
    (lines 84-96).
-/

namespace AreaMap

/-- A geocode dict as found under the `geocode` key of a record.  Each of
the `lat` / `lng` entries is `none` when the key is absent from the dict,
`some none` when the key maps to JSON null, and `some (some v)` when it
maps to a number `v`. -/
structure Geocode where
  lat : Option (Option Rat)
  lng : Option (Option Rat)
deriving DecidableEq, Repr

/-- One raw record of the JSON array returned by the API.  The `geocode`
field is `none` when the source object has no `geocode` key at all (pandas
fills the cell with NaN), `some none` when the key maps to JSON null, and
`some (some g)` when it maps to a dict `g`. -/
structure QueryRecord where
  query_id : String
  query_address : String
  region : String
  query_status : String
  priority_status : Option String
  query_description : String
  geocode : Option (Option Geocode)
deriving DecidableEq, Repr

/-- Python truthiness of a geocode cell value (`None` and the empty dict
are falsy, a non-empty dict is truthy). -/
def pyBool : Option Geocode → Bool
  | none => false
  | some g => g.lat.isSome || g.lng.isSome

/-- Python `"lat" in x` for a geocode cell value that is `None` or a dict. -/
def hasLatKey : Option Geocode → Bool
  | none => false
  | some g => g.lat.isSome

/-- Python `"lng" in x` for a geocode cell value that is `None` or a dict. -/
def hasLngKey : Option Geocode → Bool
  | none => false
  | some g => g.lng.isSome

/-- Python `x["lat"]` on a dict cell (the looked-up entry, itself nullable). -/
def getLatItem : Option Geocode → Option Rat
  | none => none
  | some g => g.lat.getD none

/-- Python `x["lng"]` on a dict cell (the looked-up entry, itself nullable). -/
def getLngItem : Option Geocode → Option Rat
  | none => none
  | some g => g.lng.getD none

/-- Line 40: `lambda x: x["lat"] if x and "lat" in x else None`. -/
def lam_lat (x : Option Geocode) : Option Rat :=
  if pyBool x && hasLatKey x then getLatItem x else none

/-- Line 41: `lambda x: x["lng"] if x and "lng" in x else None` (the source
field `lng` is written to the target column `lon`). -/
def lam_lon (x : Option Geocode) : Option Rat :=
  if pyBool x && hasLngKey x then getLngItem x else none

/-- Lines 51-58: `priority_to_color`.  The argument is the row's
`priority_status` cell (nullable); the result is the Python list literal
returned by the function. -/
def priority_to_color (priority : Option String) : List Nat :=
  if priority = some "urgent" then [255, 0, 0, 200]
  else if priority = some "high" then [255, 255, 0, 200]
  else if priority = some "medium" then [255, 165, 0, 200]
  else [0, 200, 0, 200]

/-- A record together with its flattened `lat` / `lon` columns. -/
structure Row where
  qr : QueryRecord
  lat : Option Rat
  lon : Option Rat
deriving DecidableEq, Repr

/-- Lines 40-41 applied to one record whose geocode cell is not NaN: the
flattened row.  (`getD none` collapses the NaN case, which `normalize`
rules out before this function is applied.) -/
def flatRow (r : QueryRecord) : Row :=
  ⟨r, lam_lat (r.geocode.getD none), lam_lon (r.geocode.getD none)⟩

/-- The predicate of `df.dropna(subset=["lat", "lon"])` (line 45): a row is
kept when both coordinates are non-null. -/
def keepP (w : Row) : Bool := w.lat.isSome && w.lon.isSome

/-- Python `str(...)` of a nullable string cell, as interpolated by the
tooltip f-string (a `None` cell prints as `"None"`). -/
def pyStrOpt : Option String → String
  | none => "None"
  | some s => s

/-- Lines 60-68: the tooltip f-string assembled for one row. -/
def tooltipOf (w : Row) : String :=
  "ID: " ++ w.qr.query_id ++ "\n" ++
  "Address: " ++ w.qr.query_address ++ "\n" ++
  "Region: " ++ w.qr.region ++ "\n" ++
  "Status: " ++ w.qr.query_status ++ "\n" ++
  "Priority: " ++ pyStrOpt w.qr.priority_status ++ "\n" ++
  "description: " ++ w.qr.query_description ++ " "

/-- A fully presented row: the surviving flattened row plus its `tooltip`
and `color` columns. -/
structure DisplayRow where
  row : Row
  tooltip : String
  color : List Nat
deriving DecidableEq, Repr

/-- Lines 60-70: add the `tooltip` and `color` columns to every surviving
row. -/
def present (rows : List Row) : List DisplayRow :=
  rows.map fun w => ⟨w, tooltipOf w, priority_to_color w.qr.priority_status⟩

/-- Line 43: the informational message of the empty / no-geocode-column halt. -/
def noDataMsg : String := "Waiting for data... No active geocode queries found at the moment."

/-- Line 47: the warning message of the empty-after-dropna halt. -/
def noGeoMsg : String := "No data with valid geocodes to display."

/-- Line 31: the error banner text for a fetch or parse failure. -/
def fetchErrMsg (e : String) : String := "Could not fetch or parse data from API: " ++ e

/-- The observable outcome of one page load: an error banner then stop
(line 31-32), an info banner then stop (line 43-44), a warning banner then
stop (line 47-48), an uncaught Python exception (no banner, no rendering),
or the fully rendered page carrying the final display table. -/
inductive Outcome where
  | errored : String → Outcome
  | info : String → Outcome
  | warning : String → Outcome
  | crashed : Outcome
  | rendered : List DisplayRow → Outcome
deriving DecidableEq, Repr

/-- Lines 34-70: the data-dependent part of the script, from the parsed
JSON array to either a halt or the presented table.  The first guard is
line 39 (`not df.empty and "geocode" in df.columns`: the column exists iff
at least one record carries the key); the `crashed` branch models the
uncaught `TypeError` raised by the line-40 lambda on a NaN cell (a record
without the `geocode` key while the column exists, since `bool(nan)` is
true and `"lat" in nan` raises); then the flattening, the dropna filter,
the line-46 emptiness check, and the presenter. -/
def normalize (rs : List QueryRecord) : Outcome :=
  if rs.isEmpty || !(rs.any fun r => r.geocode.isSome) then .info noDataMsg
  else if rs.any fun r => r.geocode.isNone then .crashed
  else
    let kept := (rs.map flatRow).filter keepP
    if kept.isEmpty then .warning noGeoMsg
    else .rendered (present kept)

/-- Lines 26-70: the whole load, starting from the result of the fetch
(`Except.error e` models a `RequestException` / JSON `ValueError` with
text `e`). -/
def pipeline (fetched : Except String (List QueryRecord)) : Outcome :=
  match fetched with
  | .error e => .errored (fetchErrMsg e)
  | .ok data => normalize data

/-- True exactly on the outcomes that halt with a displayed banner
(`st.error` / `st.info` / `st.warning` followed by `st.stop`). -/
def isDisplayedHalt : Outcome → Bool
  | .errored _ => true
  | .info _ => true
  | .warning _ => true
  | _ => false

/-- True exactly on the fully-rendered outcome. -/
def isRenderedOutcome : Outcome → Bool
  | .rendered _ => true
  | _ => false

/-! Renderer-side metrics (lines 102-109). -/

/-- Accumulator pass counting distinct values, as `Series.nunique` does
(first occurrence kept, duplicates skipped). -/
def uniqAux {α : Type} [DecidableEq α] : List α → List α → List α
  | acc, [] => acc
  | acc, v :: l => if v ∈ acc then uniqAux acc l else uniqAux (v :: acc) l

/-- The number of distinct values of a list of cells (`Series.nunique` on a
column without nulls). -/
def nunique {α : Type} [DecidableEq α] (l : List α) : Nat :=
  (uniqAux [] l).length

/-- Line 105: `len(df)`. -/
def totalQueries (t : List DisplayRow) : Nat := t.length

/-- Line 107: `df['region'].nunique()`. -/
def numRegions (t : List DisplayRow) : Nat :=
  nunique (t.map fun d => d.row.qr.region)

/-- Line 109: `df[df['priority_status'] == 'urgent'].shape[0]`. -/
def urgentQueries (t : List DisplayRow) : Nat :=
  (t.filter fun d => d.row.qr.priority_status == some "urgent").length

/-! Sample data used by the witness theorems. -/

/-- A record with a complete geocode (both keys present and non-null). -/
def rGood : QueryRecord :=
  ⟨"1", "12 Main Rd", "Gauteng", "open", some "urgent", "Pothole",
   some (some ⟨some (some (-26)), some (some 28)⟩)⟩

/-- A second complete record, differing from `rGood` in every non-priority
field but sharing its `priority_status`. -/
def rGood2 : QueryRecord :=
  ⟨"2", "5 Church St", "Limpopo", "closed", some "urgent", "Leak",
   some (some ⟨some (some 24), some (some 29)⟩)⟩

/-- A record whose `geocode` key is present but maps to JSON null. -/
def rNullGeo : QueryRecord :=
  ⟨"3", "8 Long St", "Western Cape", "open", some "low", "Noise",
   some none⟩

/-- A record without any `geocode` key (its pandas cell is NaN). -/
def rNoKey : QueryRecord :=
  ⟨"4", "1 Short St", "Gauteng", "open", none, "Dust", none⟩

/-- The display row produced for `rGood` by the pipeline. -/
def displayGood : DisplayRow :=
  ⟨flatRow rGood, tooltipOf (flatRow rGood), priority_to_color rGood.priority_status⟩

/-- The display row produced for `rGood2` by the pipeline. -/
def displayGood2 : DisplayRow :=
  ⟨flatRow rGood2, tooltipOf (flatRow rGood2), priority_to_color rGood2.priority_status⟩

/-- C1: for every geocode cell value, the line-40 lambda yields the `lat`
entry of the geocode dict when the dict is present and carries a `lat`
key, and null otherwise; the line-41 lambda does the same for the source
key `lng`, whose result is stored in the target column `lon`. -/
theorem c1_geocode_extraction (x : Option Geocode) :
    lam_lat x = (x.bind Geocode.lat).join ∧ lam_lon x = (x.bind Geocode.lng).join := by
  rcases x with _ | ⟨la, ln⟩
  · simp [lam_lat, lam_lon, pyBool]
  · rcases la with _ | lv <;> rcases ln with _ | nv <;>
      simp [lam_lat, lam_lon, pyBool, hasLatKey, hasLngKey, getLatItem, getLngItem]

/-- C2: `priority_to_color` is total and pure; it returns the documented
RGBA quadruple for the labels `urgent`, `high` and `medium`, and the
default green `(0, 200, 0, 200)` for every other input, including `low`,
null and unrecognized strings. -/
theorem c2_priority_to_color :
    priority_to_color (some "urgent") = [255, 0, 0, 200] ∧
    priority_to_color (some "high") = [255, 255, 0, 200] ∧
    priority_to_color (some "medium") = [255, 165, 0, 200] ∧
    priority_to_color (some "low") = [0, 200, 0, 200] ∧
    priority_to_color none = [0, 200, 0, 200] ∧
    ∀ p : Option String, p ≠ some "urgent" → p ≠ some "high" → p ≠ some "medium" →
      priority_to_color p = [0, 200, 0, 200] := by
  refine ⟨by decide, by decide, by decide, by decide, by decide, ?_⟩
  intro p h1 h2 h3
  simp [priority_to_color, h1, h2, h3]

/-- Witness for C2: a string outside the four known labels gets the
default green. -/
theorem c2_priority_to_color_witness :
    priority_to_color (some "unknown") = [0, 200, 0, 200] :=
  c2_priority_to_color.2.2.2.2.2 (some "unknown") (by decide) (by decide) (by decide)

/-- C3: every display row that survives the pipeline (every row of a
rendered outcome) has a non-null `lat` and a non-null `lon`. -/
theorem c3_filtering_invariant (rs : List QueryRecord) (t : List DisplayRow)
    (h : normalize rs = Outcome.rendered t) :
    ∀ d ∈ t, d.row.lat.isSome = true ∧ d.row.lon.isSome = true := by
  intro d hd
  simp only [normalize] at h
  split at h
  · exact absurd h (by simp)
  · split at h
    · exact absurd h (by simp)
    · split at h
      · exact absurd h (by simp)
      · injection h with h'
        subst h'
        obtain ⟨w, hw, rfl⟩ := List.mem_map.1 hd
        have hk := (List.mem_filter.1 hw).2
        simp only [keepP, Bool.and_eq_true] at hk
        exact ⟨hk.1, hk.2⟩

/-- Witness for C3: the surviving row of the singleton good input has both
coordinates present. -/
theorem c3_filtering_invariant_witness :
    displayGood.row.lat.isSome = true ∧ displayGood.row.lon.isSome = true :=
  c3_filtering_invariant [rGood] [displayGood] (by decide) displayGood
    (List.mem_singleton.mpr rfl)

/-- Unfolding of `normalize` once the three guards are known: the run
reaches the dropna filter and the line-46 emptiness check. -/
lemma normalize_of_guards (rs : List QueryRecord)
    (h1 : rs.isEmpty = false)
    (h2 : (rs.any fun r => r.geocode.isSome) = true)
    (h3 : (rs.any fun r => r.geocode.isNone) = false) :
    normalize rs =
      if ((rs.map flatRow).filter keepP).isEmpty then Outcome.warning noGeoMsg
      else Outcome.rendered (present ((rs.map flatRow).filter keepP)) := by
  simp [normalize, h1, h2, h3]

/-- Inversion of `normalize`: a rendered outcome pins down all three
guards, the non-emptiness of the filtered table, and the table itself. -/
lemma normalize_rendered_inv (rs : List QueryRecord) (t : List DisplayRow)
    (h : normalize rs = Outcome.rendered t) :
    rs.isEmpty = false ∧ (rs.any fun r => r.geocode.isSome) = true ∧
    (rs.any fun r => r.geocode.isNone) = false ∧
    ((rs.map flatRow).filter keepP).isEmpty = false ∧
    t = present ((rs.map flatRow).filter keepP) := by
  simp only [normalize] at h
  split at h
  next hc1 => exact absurd h (by simp)
  next hc1 =>
    split at h
    next hc2 => exact absurd h (by simp)
    next hc2 =>
      split at h
      next hc3 => exact absurd h (by simp)
      next hc3 =>
        injection h with h'
        have h1 := Bool.eq_false_iff.mpr hc1
        simp only [Bool.or_eq_false_iff, Bool.not_eq_false'] at h1
        exact ⟨h1.1, h1.2, Bool.eq_false_iff.mpr hc2, Bool.eq_false_iff.mpr hc3, h'.symm⟩

/-- The line-46 table is empty exactly when no record flattens to a row
with both coordinates present. -/
lemma filter_isEmpty_iff (rs : List QueryRecord) :
    ((rs.map flatRow).filter keepP).isEmpty = true ↔
      ∀ r ∈ rs, keepP (flatRow r) = false := by
  rw [List.isEmpty_iff, List.filter_eq_nil_iff]
  constructor
  · intro h r hr
    exact Bool.eq_false_iff.mpr (h (flatRow r) (List.mem_map_of_mem _ hr))
  · intro h w hw
    obtain ⟨r, hr, rfl⟩ := List.mem_map.1 hw
    exact Bool.eq_false_iff.1 (h r hr)

/-- C4, counterexample: on a collection where one record carries a geocode
and another lacks the `geocode` key altogether, the run neither halts with
a displayed banner nor renders: the line-40 lambda receives the NaN cell
pandas fills in for the missing key, `bool(nan)` is true, and
`"lat" in nan` raises an uncaught `TypeError`. -/
theorem c4_counterexample :
    isDisplayedHalt (normalize [rGood, rNoKey]) = false ∧
    isRenderedOutcome (normalize [rGood, rNoKey]) = false := by decide

/-- C4, amended: restricted to collections in which geocode-key presence
is uniform across records, the pipeline halts with a displayed message at
exactly the three checkpoints, in order: a fetch or parse failure gives
the error banner; an empty collection or one where no record carries a
geocode key gives the informational banner; a table left empty by the
dropna filter gives the distinct warning banner; otherwise the filtered
table is rendered in full.  (A mixed collection instead raises an
uncaught `TypeError`, see the counterexample.) -/
theorem c4_halt_checkpoints :
    (∀ e, pipeline (Except.error e) = Outcome.errored (fetchErrMsg e)) ∧
    (∀ rs : List QueryRecord, (∀ r ∈ rs, r.geocode.isNone = true) →
      normalize rs = Outcome.info noDataMsg) ∧
    (∀ rs : List QueryRecord, (∀ r ∈ rs, r.geocode.isSome = true) → rs ≠ [] →
      (normalize rs = Outcome.warning noGeoMsg ↔ ∀ r ∈ rs, keepP (flatRow r) = false) ∧
      ((∃ r ∈ rs, keepP (flatRow r) = true) →
        normalize rs = Outcome.rendered (present ((rs.map flatRow).filter keepP)))) ∧
    noDataMsg ≠ noGeoMsg := by
  refine ⟨fun e => rfl, ?_, ?_, by decide⟩
  · intro rs hall
    cases rs with
    | nil => rfl
    | cons r rs' =>
      have hany : ((r :: rs').any fun x => x.geocode.isSome) = false := by
        rw [List.any_eq_false]
        intro x hx
        have hx' : x.geocode = none := Option.isNone_iff_eq_none.mp (hall x hx)
        simp [hx']
      simp [normalize, hany]
  · intro rs hall hne
    obtain ⟨r, rs', rfl⟩ := List.exists_cons_of_ne_nil hne
    have h1 : (r :: rs').isEmpty = false := rfl
    have h2 : ((r :: rs').any fun x => x.geocode.isSome) = true := by
      rw [List.any_eq_true]
      exact ⟨r, by simp, hall r (by simp)⟩
    have h3 : ((r :: rs').any fun x => x.geocode.isNone) = false := by
      rw [List.any_eq_false]
      intro x hx
      obtain ⟨v, hv⟩ := Option.isSome_iff_exists.1 (hall x hx)
      simp [hv]
    have hN := normalize_of_guards _ h1 h2 h3
    constructor
    · constructor
      · intro hw
        rw [hN] at hw
        split at hw
        next hc => exact (filter_isEmpty_iff _).1 hc
        next hc => exact absurd hw (by simp)
      · intro hbad
        rw [hN, if_pos ((filter_isEmpty_iff _).2 hbad)]
    · rintro ⟨r0, hr0, hk0⟩
      have hc : ¬(((((r :: rs').map flatRow).filter keepP).isEmpty) = true) := by
        intro hcon
        have := (filter_isEmpty_iff _).1 hcon r0 hr0
        rw [this] at hk0
        exact Bool.false_ne_true hk0
      rw [hN, if_neg hc]

/-- Witness for C4: the informational halt fires on a keyless singleton,
and a well-geocoded singleton renders the filtered table. -/
theorem c4_halt_checkpoints_witness :
    normalize [rNoKey] = Outcome.info noDataMsg ∧
    normalize [rGood] = Outcome.rendered (present (([rGood].map flatRow).filter keepP)) :=
  ⟨c4_halt_checkpoints.2.1 [rNoKey] (by decide),
   (c4_halt_checkpoints.2.2.1 [rGood] (by decide) (by decide)).2
     ⟨rGood, List.mem_singleton.mpr rfl, by decide⟩⟩

/-- Newline-splitting of a character list (the lines of a string; a string
with k newline characters has k+1 lines). -/
def splitLines : List Char → List (List Char)
  | [] => [[]]
  | c :: rest =>
    if c = '\n' then [] :: splitLines rest
    else
      match splitLines rest with
      | [] => [[c]]
      | l :: ls => (c :: l) :: ls

/-- The character list of the one-character string holding a newline. -/
lemma nl_data : "\n".data = ['\n'] := rfl

/-- Splitting a list that starts with a newline-free segment followed by a
newline peels off that segment as the first line. -/
lemma splitLines_append (a l : List Char) (ha : ∀ c ∈ a, c ≠ '\n') :
    splitLines (a ++ '\n' :: l) = a :: splitLines l := by
  induction a with
  | nil => simp [splitLines]
  | cons c a' ih =>
    have hc : c ≠ '\n' := ha c (by simp)
    have ih' := ih fun x hx => ha x (by simp [hx])
    simp only [List.cons_append, splitLines, if_neg hc]
    rw [List.append_eq, ih']

/-- A newline-free list is a single line. -/
lemma splitLines_no_nl (l : List Char) (h : ∀ c ∈ l, c ≠ '\n') :
    splitLines l = [l] := by
  induction l with
  | nil => rfl
  | cons c l' ih =>
    simp [splitLines, h c (by simp), ih fun x hx => h x (by simp [hx])]

/-- Concatenation preserves newline-freedom. -/
lemma no_nl_app {a b : List Char} (ha : ∀ c ∈ a, c ≠ '\n') (hb : ∀ c ∈ b, c ≠ '\n') :
    ∀ c ∈ a ++ b, c ≠ '\n' := by
  intro c hc
  rcases List.mem_append.1 hc with h | h
  exacts [ha c h, hb c h]

/-- The tooltip string decomposed at its five separating newlines. -/
lemma tooltip_data (w : Row) :
    (tooltipOf w).data =
      ("ID: " ++ w.qr.query_id).data ++ '\n' ::
      (("Address: " ++ w.qr.query_address).data ++ '\n' ::
      (("Region: " ++ w.qr.region).data ++ '\n' ::
      (("Status: " ++ w.qr.query_status).data ++ '\n' ::
      (("Priority: " ++ pyStrOpt w.qr.priority_status).data ++ '\n' ::
      ("description: " ++ w.qr.query_description ++ " ").data)))) := by
  simp [tooltipOf, String.data_append, nl_data, List.append_assoc]

/-- C5, counterexample: the tooltip built for the scenario-C row consists
of six newline-separated lines, not five — the template interpolates six
labelled fields, each on its own line. -/
theorem c5_counterexample :
    (splitLines (tooltipOf (flatRow rGood)).data).length = 6 ∧
    (splitLines (tooltipOf (flatRow rGood)).data).length ≠ 5 := by decide

/-- C5, amended: the tooltip is built from a fixed six-line template
interpolating `query_id`, `query_address`, `region`, `query_status`,
`priority_status`, `query_description`, in that order, newline-separated,
with literal field labels; for a row with `query_id` equal to `1` the
tooltip starts with `ID: 1` followed by a newline. -/
theorem c5_tooltip_lines :
    (∀ w : Row,
      (∀ c ∈ w.qr.query_id.data, c ≠ '\n') →
      (∀ c ∈ w.qr.query_address.data, c ≠ '\n') →
      (∀ c ∈ w.qr.region.data, c ≠ '\n') →
      (∀ c ∈ w.qr.query_status.data, c ≠ '\n') →
      (∀ c ∈ (pyStrOpt w.qr.priority_status).data, c ≠ '\n') →
      (∀ c ∈ w.qr.query_description.data, c ≠ '\n') →
      splitLines (tooltipOf w).data =
        [("ID: " ++ w.qr.query_id).data,
         ("Address: " ++ w.qr.query_address).data,
         ("Region: " ++ w.qr.region).data,
         ("Status: " ++ w.qr.query_status).data,
         ("Priority: " ++ pyStrOpt w.qr.priority_status).data,
         ("description: " ++ w.qr.query_description ++ " ").data]) ∧
    (∀ w : Row, w.qr.query_id = "1" → (tooltipOf w).data.take 6 = "ID: 1\n".data) := by
  constructor
  · intro w h1 h2 h3 h4 h5 h6
    have l1 : ∀ c ∈ ("ID: " ++ w.qr.query_id).data, c ≠ '\n' := by
      rw [String.data_append]; exact no_nl_app (by decide) h1
    have l2 : ∀ c ∈ ("Address: " ++ w.qr.query_address).data, c ≠ '\n' := by
      rw [String.data_append]; exact no_nl_app (by decide) h2
    have l3 : ∀ c ∈ ("Region: " ++ w.qr.region).data, c ≠ '\n' := by
      rw [String.data_append]; exact no_nl_app (by decide) h3
    have l4 : ∀ c ∈ ("Status: " ++ w.qr.query_status).data, c ≠ '\n' := by
      rw [String.data_append]; exact no_nl_app (by decide) h4
    have l5 : ∀ c ∈ ("Priority: " ++ pyStrOpt w.qr.priority_status).data, c ≠ '\n' := by
      rw [String.data_append]; exact no_nl_app (by decide) h5
    have l6 : ∀ c ∈ ("description: " ++ w.qr.query_description ++ " ").data, c ≠ '\n' := by
      rw [String.data_append, String.data_append]
      exact no_nl_app (no_nl_app (by decide) h6) (by decide)
    rw [tooltip_data w, splitLines_append _ _ l1, splitLines_append _ _ l2,
        splitLines_append _ _ l3, splitLines_append _ _ l4, splitLines_append _ _ l5,
        splitLines_no_nl _ l6]
  · intro w h
    rw [tooltip_data w, h]
    rfl

/-- Witness for C5: the scenario-C row with `query_id` `1`, `urgent`
priority and newline-free fields gets the six labelled lines, and its
tooltip starts with `ID: 1` and a newline. -/
theorem c5_tooltip_lines_witness :
    splitLines (tooltipOf (flatRow rGood)).data =
      [("ID: " ++ rGood.query_id).data,
       ("Address: " ++ rGood.query_address).data,
       ("Region: " ++ rGood.region).data,
       ("Status: " ++ rGood.query_status).data,
       ("Priority: " ++ pyStrOpt rGood.priority_status).data,
       ("description: " ++ rGood.query_description ++ " ").data] ∧
    (tooltipOf (flatRow rGood)).data.take 6 = "ID: 1\n".data :=
  ⟨c5_tooltip_lines.1 (flatRow rGood) (by decide) (by decide) (by decide) (by decide)
     (by decide) (by decide),
   c5_tooltip_lines.2 (flatRow rGood) (by decide)⟩

/-- Heterogeneous version of `any` over `map` (the library lemma of this
toolchain version is restricted to an endomap). -/
lemma any_map' {α β : Type} (f : α → β) (l : List α) (p : β → Bool) :
    (l.map f).any p = l.any fun a => p (f a) := by
  induction l with
  | nil => rfl
  | cons a l ih => simp [ih]

/-- A record whose flattened row survives the dropna filter has a geocode
dict under a present key. -/
lemma keep_flatRow_geocode (r : QueryRecord) (h : keepP (flatRow r) = true) :
    ∃ g, r.geocode = some (some g) := by
  rcases hr : r.geocode with _ | x
  · simp [keepP, flatRow, hr, lam_lat, lam_lon, pyBool] at h
  · rcases x with _ | g
    · simp [keepP, flatRow, hr, lam_lat, lam_lon, pyBool] at h
    · exact ⟨g, rfl⟩

/-- C7: running the normalizer on the records of its own rendered output
reproduces that output verbatim — in particular the re-run has the same
row count. -/
theorem c7_normalize_idempotent (rs : List QueryRecord) (t : List DisplayRow)
    (h : normalize rs = Outcome.rendered t) :
    normalize (t.map fun d => d.row.qr) = Outcome.rendered t := by
  obtain ⟨h1, h2, h3, h4, ht⟩ := normalize_rendered_inv rs t h
  subst ht
  have hmem : ∀ w ∈ (rs.map flatRow).filter keepP,
      (∃ r ∈ rs, flatRow r = w) ∧ keepP w = true := by
    intro w hw
    have hw' := List.mem_filter.1 hw
    exact ⟨List.mem_map.1 hw'.1, hw'.2⟩
  have hg : ∀ w ∈ (rs.map flatRow).filter keepP, ∃ g, w.qr.geocode = some (some g) := by
    intro w hw
    obtain ⟨⟨r, hr, rfl⟩, hk⟩ := hmem w hw
    exact keep_flatRow_geocode r hk
  have hne : (rs.map flatRow).filter keepP ≠ [] := by
    intro hcon
    rw [hcon] at h4
    exact absurd h4 (by simp)
  obtain ⟨w0, hw0⟩ := List.exists_mem_of_ne_nil _ hne
  have hrs' : (present ((rs.map flatRow).filter keepP)).map (fun d => d.row.qr)
      = ((rs.map flatRow).filter keepP).map (fun w => w.qr) := by
    simp [present, List.map_map, Function.comp]
  rw [hrs']
  have g1 : (((rs.map flatRow).filter keepP).map (fun w => w.qr)).isEmpty = false := by
    cases hcase : (rs.map flatRow).filter keepP with
    | nil => exact absurd hcase hne
    | cons a l => rfl
  have g2 : ((((rs.map flatRow).filter keepP).map fun w => w.qr).any
      fun r => r.geocode.isSome) = true := by
    rw [any_map', List.any_eq_true]
    obtain ⟨g, hgeq⟩ := hg w0 hw0
    exact ⟨w0, hw0, by simp [hgeq]⟩
  have g3 : ((((rs.map flatRow).filter keepP).map fun w => w.qr).any
      fun r => r.geocode.isNone) = false := by
    rw [any_map', List.any_eq_false]
    intro w hw
    obtain ⟨g, hgeq⟩ := hg w hw
    simp [hgeq]
  rw [normalize_of_guards _ g1 g2 g3]
  have hrows : ((((rs.map flatRow).filter keepP).map fun w => w.qr).map flatRow)
      = (rs.map flatRow).filter keepP := by
    rw [List.map_map]
    have : ∀ w ∈ (rs.map flatRow).filter keepP, (flatRow ∘ fun w => w.qr) w = id w := by
      intro w hw
      obtain ⟨⟨r, hr, rfl⟩, hk⟩ := hmem w hw
      rfl
    rw [List.map_congr_left this, List.map_id]
  rw [hrows, List.filter_eq_self.mpr fun w hw => (hmem w hw).2]
  rw [if_neg (by simp [h4])]

/-- Witness for C7: re-running the normalizer on the rendered output of
the singleton good input renders that same output. -/
theorem c7_normalize_idempotent_witness :
    normalize ((present (([rGood].map flatRow).filter keepP)).map fun d => d.row.qr) =
      Outcome.rendered (present (([rGood].map flatRow).filter keepP)) :=
  c7_normalize_idempotent [rGood] (present (([rGood].map flatRow).filter keepP)) (by decide)

/-- C8: the color column is a pure function of `priority_status` alone:
any two presented rows, from any two runs, with equal `priority_status`
cells receive equal colors. -/
theorem c8_color_pure (l₁ l₂ : List Row) (d₁ d₂ : DisplayRow)
    (h₁ : d₁ ∈ present l₁) (h₂ : d₂ ∈ present l₂)
    (hp : d₁.row.qr.priority_status = d₂.row.qr.priority_status) :
    d₁.color = d₂.color := by
  simp only [present] at h₁ h₂
  obtain ⟨w₁, _, rfl⟩ := List.mem_map.1 h₁
  obtain ⟨w₂, _, rfl⟩ := List.mem_map.1 h₂
  exact congrArg priority_to_color hp

/-- Witness for C8: two rows differing in every other field but sharing
the `urgent` priority get the same color. -/
theorem c8_color_pure_witness : displayGood.color = displayGood2.color :=
  c8_color_pure [flatRow rGood] [flatRow rGood2] displayGood displayGood2
    (List.mem_singleton.mpr rfl) (List.mem_singleton.mpr rfl) (by decide)

/-- The distinct-count accumulator keeps no duplicates and collects
exactly the values of its two arguments. -/
lemma uniqAux_spec {α : Type} [DecidableEq α] (l : List α) :
    ∀ acc : List α, acc.Nodup →
      (uniqAux acc l).Nodup ∧ (uniqAux acc l).toFinset = acc.toFinset ∪ l.toFinset := by
  induction l with
  | nil => intro acc hacc; simp [uniqAux, hacc]
  | cons v l' ih =>
    intro acc hacc
    by_cases hv : v ∈ acc
    · simp only [uniqAux, if_pos hv]
      refine ⟨(ih acc hacc).1, ?_⟩
      rw [(ih acc hacc).2, List.toFinset_cons, Finset.union_insert,
        Finset.insert_eq_self.mpr (Finset.mem_union_left _ (List.mem_toFinset.mpr hv))]
    · have hacc' : (v :: acc).Nodup := List.nodup_cons.mpr ⟨hv, hacc⟩
      simp only [uniqAux, if_neg hv]
      refine ⟨(ih _ hacc').1, ?_⟩
      rw [(ih _ hacc').2, List.toFinset_cons, List.toFinset_cons,
        Finset.insert_union, Finset.union_insert]

/-- C9: the three scalar metrics are the surviving table's row count, its
number of distinct region values, and the number of its rows whose
priority is `urgent`. -/
theorem c9_metrics (t : List DisplayRow) :
    totalQueries t = t.length ∧
    numRegions t = (t.map fun d => d.row.qr.region).toFinset.card ∧
    urgentQueries t = t.countP fun d => d.row.qr.priority_status == some "urgent" := by
  refine ⟨rfl, ?_, ?_⟩
  · have h := uniqAux_spec (t.map fun d => d.row.qr.region) [] List.nodup_nil
    rw [numRegions, nunique, ← List.toFinset_card_of_nodup h.1, h.2]
    simp
  · rw [urgentQueries, List.countP_eq_length_filter]

/-- When every record carries the `geocode` key and the collection is
non-empty, the three leading guards of `normalize` are all settled. -/
lemma guards_of_allSome (rs : List QueryRecord)
    (hall : ∀ r ∈ rs, r.geocode.isSome = true) (hne : rs ≠ []) :
    rs.isEmpty = false ∧ (rs.any fun r => r.geocode.isSome) = true ∧
    (rs.any fun r => r.geocode.isNone) = false := by
  obtain ⟨r, rs', rfl⟩ := List.exists_cons_of_ne_nil hne
  refine ⟨rfl, ?_, ?_⟩
  · rw [List.any_eq_true]
    exact ⟨r, by simp, hall r (by simp)⟩
  · rw [List.any_eq_false]
    intro x hx
    obtain ⟨v, hv⟩ := Option.isSome_iff_exists.1 (hall x hx)
    simp [hv]

/-- The degenerate geocode shapes named by the claim: the cell is null, an
empty dict, a dict missing the `lat` or `lng` key, or a dict carrying null
under `lat` or `lng`. -/
def specBadGeocode (x : Option Geocode) : Bool :=
  match x with
  | none => true
  | some g =>
    (g.lat.isNone && g.lng.isNone) || g.lat.isNone || g.lng.isNone ||
    g.lat == some none || g.lng == some none

/-- A geocode value is degenerate exactly when at least one extracted
coordinate is null. -/
lemma specBad_iff (x : Option Geocode) :
    specBadGeocode x = true ↔ (lam_lat x = none ∨ lam_lon x = none) := by
  rcases x with _ | ⟨la, ln⟩
  · simp [specBadGeocode, lam_lat, lam_lon, pyBool]
  · rcases la with _ | (_ | lv) <;> rcases ln with _ | (_ | nv) <;>
      simp [specBadGeocode, lam_lat, lam_lon, pyBool, hasLatKey, hasLngKey,
        getLatItem, getLngItem]

/-- The dropna filter drops a flattened row exactly when its record's
geocode value is degenerate. -/
lemma keepP_flatRow_iff (r : QueryRecord) :
    keepP (flatRow r) = false ↔ specBadGeocode (r.geocode.getD none) = true := by
  rw [specBad_iff]
  cases ha : lam_lat (r.geocode.getD none) <;> cases hb : lam_lon (r.geocode.getD none) <;>
    simp [keepP, flatRow, ha, hb]

/-- C10: a record whose geocode is null, an empty dict, missing the `lat`
or `lng` key, or null-valued under one of them gets a null extracted
coordinate; given that every record carries the `geocode` key, such
records are silently dropped by the filter (a collection containing at
least one non-degenerate record still renders, and its rendered rows are
all non-degenerate), and the empty-after-filtering warning halt fires
exactly when every record is degenerate. -/
theorem c10_degenerate_dropped :
    (∀ x : Option Geocode, specBadGeocode x = true → lam_lat x = none ∨ lam_lon x = none) ∧
    (∀ rs : List QueryRecord, (∀ r ∈ rs, r.geocode.isSome = true) → rs ≠ [] →
      ((∃ r ∈ rs, specBadGeocode (r.geocode.getD none) = false) →
        ∃ t, normalize rs = Outcome.rendered t ∧
          ∀ d ∈ t, specBadGeocode (d.row.qr.geocode.getD none) = false) ∧
      (normalize rs = Outcome.warning noGeoMsg ↔
        ∀ r ∈ rs, specBadGeocode (r.geocode.getD none) = true)) := by
  refine ⟨fun x hx => (specBad_iff x).1 hx, ?_⟩
  intro rs hall hne
  obtain ⟨h1, h2, h3⟩ := guards_of_allSome rs hall hne
  have hN := normalize_of_guards rs h1 h2 h3
  constructor
  · rintro ⟨r0, hr0, hgood⟩
    have hkeep : keepP (flatRow r0) = true := by
      rcases Bool.eq_false_or_eq_true (keepP (flatRow r0)) with ht | hf
      · exact ht
      · rw [(keepP_flatRow_iff r0).1 hf] at hgood
        exact absurd hgood (by simp)
    have hc : ¬((((rs.map flatRow).filter keepP).isEmpty) = true) := by
      intro hcon
      have := (filter_isEmpty_iff rs).1 hcon r0 hr0
      rw [this] at hkeep
      exact Bool.false_ne_true hkeep
    refine ⟨present ((rs.map flatRow).filter keepP), by rw [hN, if_neg hc], ?_⟩
    intro d hd
    simp only [present] at hd
    obtain ⟨w, hw, rfl⟩ := List.mem_map.1 hd
    obtain ⟨hwm, hwk⟩ := List.mem_filter.1 hw
    obtain ⟨r, hr, rfl⟩ := List.mem_map.1 hwm
    rcases Bool.eq_false_or_eq_true (specBadGeocode (r.geocode.getD none)) with ht | hf
    · rw [(keepP_flatRow_iff r).2 ht] at hwk
      exact absurd hwk (by simp)
    · exact hf
  · constructor
    · intro hw r hr
      rw [hN] at hw
      split at hw
      next hc => exact (keepP_flatRow_iff r).1 ((filter_isEmpty_iff rs).1 hc r hr)
      next hc => exact absurd hw (by simp)
    · intro hbad
      rw [hN,
        if_pos ((filter_isEmpty_iff rs).2 fun r hr => (keepP_flatRow_iff r).2 (hbad r hr))]

/-- Witness for C10: a singleton whose geocode key maps to null is
entirely degenerate, so the warning halt fires. -/
theorem c10_degenerate_dropped_witness :
    normalize [rNullGeo] = Outcome.warning noGeoMsg :=
  ((c10_degenerate_dropped.2 [rNullGeo] (by decide) (by decide)).2).mpr (by decide)

/-! CSV export (lines 84-96) and its re-parse.  The writer mirrors pandas
`to_csv(index=False)`: a header line then one line per row, each line
newline-terminated, fields joined by commas, and QUOTE_MINIMAL quoting (a
field is wrapped in double quotes, with inner quotes doubled, exactly when
it contains a comma, a quote, a newline or a carriage return).  The
UTF-8 `encode` step is elided: it is injective and both sides of the
round-trip live at the character level. -/

/-- The characters that force quoting under QUOTE_MINIMAL. -/
def isSpecial (c : Char) : Bool := c = ',' || c = '"' || c = '\n' || c = '\r'

/-- Double every double-quote character of a field. -/
def dupQuotes : List Char → List Char
  | [] => []
  | c :: l => (if c = '"' then ['"', '"'] else [c]) ++ dupQuotes l

/-- QUOTE_MINIMAL rendering of one field. -/
def escapeField (f : List Char) : List Char :=
  if f.any isSpecial then '"' :: (dupQuotes f ++ ['"']) else f

/-- One CSV line: the escaped fields joined by commas, ending in a
newline. -/
def recordLine : List (List Char) → List Char
  | [] => ['\n']
  | [f] => escapeField f ++ ['\n']
  | f :: fs => escapeField f ++ ',' :: recordLine fs

/-- A whole CSV text: the concatenated lines of all records. -/
def csvChars : List (List (List Char)) → List Char
  | [] => []
  | r :: rs => recordLine r ++ csvChars rs

/-- The 8-column header of the exported projection (line 82/88). -/
def headerFields : List (List Char) :=
  ["query_id".data, "query_address".data, "region".data, "query_status".data,
   "priority_status".data, "query_description".data, "lat".data, "lon".data]

/-- A nullable string cell as written by `to_csv` (None becomes the empty
field). -/
def csvOptStr (p : Option String) : List Char := (p.getD "").data

/-- A nullable numeric cell as written by `to_csv`, under a given number
rendering. -/
def csvOptRat (render : Rat → List Char) (o : Option Rat) : List Char :=
  (o.map render).getD []

/-- The projected 8-column cells of one display row, in the column order
of line 88, rendered to field texts. -/
def displayCells (render : Rat → List Char) (d : DisplayRow) : List (List Char) :=
  [d.row.qr.query_id.data, d.row.qr.query_address.data, d.row.qr.region.data,
   d.row.qr.query_status.data, csvOptStr d.row.qr.priority_status,
   d.row.qr.query_description.data, csvOptRat render d.row.lat, csvOptRat render d.row.lon]

/-- Lines 84-88: `convert_df_to_csv` applied to the projected table — the
CSV text of the header row followed by the data rows. -/
def convert_df_to_csv (render : Rat → List Char) (t : List DisplayRow) : String :=
  String.mk (csvChars (headerFields :: t.map (displayCells render)))

/-- Reader mode: at a field boundary, inside an unquoted field, inside a
quoted field, or just after a quote inside a quoted field. -/
inductive CsvMode where
  | fieldStart
  | unquoted
  | quoted
  | quoteSeen
deriving DecidableEq, Repr

/-- Reader state: mode, current field (reversed), current record's fields
(reversed), finished records (reversed), and a validity flag. -/
structure CsvState where
  mode : CsvMode
  cur : List Char
  fields : List (List Char)
  recs : List (List (List Char))
  ok : Bool
deriving DecidableEq, Repr

/-- Modelled from the spec: one transition of a standard CSV reader (the
spec's round-trip property re-parses the export, but the repository
contains no reader).  Comma ends a field, newline ends a record, a quote
opens a quoted field in which doubled quotes denote a literal quote; a
stray character after a closing quote marks the input invalid. -/
def csvStep : CsvState → Char → CsvState
  | ⟨.fieldStart, cur, fl, rs, ok⟩, c =>
    if c = '"' then ⟨.quoted, cur, fl, rs, ok⟩
    else if c = ',' then ⟨.fieldStart, [], cur.reverse :: fl, rs, ok⟩
    else if c = '\n' then ⟨.fieldStart, [], [], (cur.reverse :: fl).reverse :: rs, ok⟩
    else ⟨.unquoted, c :: cur, fl, rs, ok⟩
  | ⟨.unquoted, cur, fl, rs, ok⟩, c =>
    if c = ',' then ⟨.fieldStart, [], cur.reverse :: fl, rs, ok⟩
    else if c = '\n' then ⟨.fieldStart, [], [], (cur.reverse :: fl).reverse :: rs, ok⟩
    else ⟨.unquoted, c :: cur, fl, rs, ok⟩
  | ⟨.quoted, cur, fl, rs, ok⟩, c =>
    if c = '"' then ⟨.quoteSeen, cur, fl, rs, ok⟩
    else ⟨.quoted, c :: cur, fl, rs, ok⟩
  | ⟨.quoteSeen, cur, fl, rs, ok⟩, c =>
    if c = '"' then ⟨.quoted, '"' :: cur, fl, rs, ok⟩
    else if c = ',' then ⟨.fieldStart, [], cur.reverse :: fl, rs, ok⟩
    else if c = '\n' then ⟨.fieldStart, [], [], (cur.reverse :: fl).reverse :: rs, ok⟩
    else ⟨.quoteSeen, cur, fl, rs, false⟩

/-- The reader's initial state. -/
def csvInit : CsvState := ⟨.fieldStart, [], [], [], true⟩

/-- Running the reader over a character list. -/
def runCsv (s : CsvState) (l : List Char) : CsvState := l.foldl csvStep s

/-- Modelled from the spec: the full CSV re-parse (absent from the
repository).  Rejects invalid input (stray data after a closing quote, or
an unterminated quoted field); flushes a final record not ended by a
newline; returns the records in input order. -/
def parseCsv (input : List Char) : Option (List (List (List Char))) :=
  let s := runCsv csvInit input
  if s.ok = false then none
  else
    match s.mode with
    | .quoted => none
    | .fieldStart =>
      if s.cur.isEmpty && s.fields.isEmpty then some s.recs.reverse
      else some ((s.cur.reverse :: s.fields).reverse :: s.recs).reverse
    | _ => some ((s.cur.reverse :: s.fields).reverse :: s.recs).reverse

/-- One reader step on a cons input. -/
lemma runCsv_cons (s : CsvState) (c : Char) (l : List Char) :
    runCsv s (c :: l) = runCsv (csvStep s c) l := rfl

/-- The reader distributes over concatenation. -/
lemma runCsv_append (s : CsvState) (l1 l2 : List Char) :
    runCsv s (l1 ++ l2) = runCsv (runCsv s l1) l2 := by
  simp [runCsv, List.foldl_append]

/-- A non-special character is not a comma, a quote or a newline. -/
lemma not_special_facts (c : Char) (h : isSpecial c = false) :
    c ≠ ',' ∧ c ≠ '"' ∧ c ≠ '\n' := by
  refine ⟨fun hc => ?_, fun hc => ?_, fun hc => ?_⟩ <;>
    (subst hc; exact absurd h (by decide))

/-- Inside an unquoted field, non-special characters are accumulated. -/
lemma run_unquoted (f : List Char) (h : ∀ c ∈ f, isSpecial c = false) :
    ∀ (acc : List Char) (fl : List (List Char)) (rs : List (List (List Char)))
      (ok : Bool) (t : List Char),
      runCsv ⟨.unquoted, acc, fl, rs, ok⟩ (f ++ t)
        = runCsv ⟨.unquoted, f.reverse ++ acc, fl, rs, ok⟩ t := by
  induction f with
  | nil => intro acc fl rs ok t; simp
  | cons c f' ih =>
    intro acc fl rs ok t
    obtain ⟨h1, h2, h3⟩ := not_special_facts c (h c (by simp))
    rw [List.cons_append, runCsv_cons]
    have hstep : csvStep ⟨.unquoted, acc, fl, rs, ok⟩ c = ⟨.unquoted, c :: acc, fl, rs, ok⟩ := by
      simp only [csvStep]
      rw [if_neg h1, if_neg h3]
    rw [hstep, ih (fun x hx => h x (by simp [hx])) (c :: acc)]
    have hl : (c :: f').reverse ++ acc = f'.reverse ++ (c :: acc) := by simp
    rw [hl]

/-- Inside a quoted field, the doubled-quote rendering of the field is
undone and the closing quote enters the after-quote mode. -/
lemma run_quoted (f : List Char) :
    ∀ (acc : List Char) (fl : List (List Char)) (rs : List (List (List Char)))
      (ok : Bool) (t : List Char),
      runCsv ⟨.quoted, acc, fl, rs, ok⟩ (dupQuotes f ++ '"' :: t)
        = runCsv ⟨.quoteSeen, f.reverse ++ acc, fl, rs, ok⟩ t := by
  induction f with
  | nil =>
    intro acc fl rs ok t
    simp only [dupQuotes, List.nil_append, runCsv_cons]
    have hstep : csvStep ⟨.quoted, acc, fl, rs, ok⟩ '"' = ⟨.quoteSeen, acc, fl, rs, ok⟩ := rfl
    rw [hstep]
    simp
  | cons c f' ih =>
    intro acc fl rs ok t
    by_cases hc : c = '"'
    · subst hc
      have hd : dupQuotes ('"' :: f') = '"' :: '"' :: dupQuotes f' := rfl
      rw [hd, List.cons_append, List.cons_append, runCsv_cons, runCsv_cons]
      have h1 : csvStep ⟨.quoted, acc, fl, rs, ok⟩ '"' = ⟨.quoteSeen, acc, fl, rs, ok⟩ := rfl
      have h2 : csvStep ⟨.quoteSeen, acc, fl, rs, ok⟩ '"' = ⟨.quoted, '"' :: acc, fl, rs, ok⟩ := rfl
      rw [h1, h2, ih ('"' :: acc)]
      have hl : ('"' :: f').reverse ++ acc = f'.reverse ++ ('"' :: acc) := by simp
      rw [hl]
    · have hd : dupQuotes (c :: f') = c :: dupQuotes f' := by
        simp only [dupQuotes, if_neg hc, List.singleton_append]
      rw [hd, List.cons_append, runCsv_cons]
      have hstep : csvStep ⟨.quoted, acc, fl, rs, ok⟩ c = ⟨.quoted, c :: acc, fl, rs, ok⟩ := by
        simp only [csvStep]
        rw [if_neg hc]
      rw [hstep, ih (c :: acc)]
      have hl : (c :: f').reverse ++ acc = f'.reverse ++ (c :: acc) := by simp
      rw [hl]

/-- Consuming one escaped field followed by a comma pushes exactly that
field onto the current record. -/
lemma run_field_comma (f : List Char) (fl : List (List Char))
    (rs : List (List (List Char))) (ok : Bool) (t : List Char) :
    runCsv ⟨.fieldStart, [], fl, rs, ok⟩ (escapeField f ++ ',' :: t)
      = runCsv ⟨.fieldStart, [], f :: fl, rs, ok⟩ t := by
  by_cases hsp : f.any isSpecial = true
  · simp only [escapeField, if_pos hsp, List.cons_append, runCsv_cons]
    have h1 : csvStep ⟨.fieldStart, [], fl, rs, ok⟩ '"' = ⟨.quoted, [], fl, rs, ok⟩ := rfl
    rw [h1, List.append_assoc, List.singleton_append, run_quoted f [] fl rs ok, runCsv_cons]
    have h2 : csvStep ⟨.quoteSeen, f.reverse ++ [], fl, rs, ok⟩ ','
        = ⟨.fieldStart, [], (f.reverse ++ []).reverse :: fl, rs, ok⟩ := rfl
    rw [h2]
    simp
  · have hall : ∀ c ∈ f, isSpecial c = false := by
      have hsp' : f.any isSpecial = false := Bool.eq_false_iff.mpr hsp
      rw [List.any_eq_false] at hsp'
      intro c hc
      exact Bool.eq_false_iff.mpr (hsp' c hc)
    simp only [escapeField, if_neg hsp]
    cases f with
    | nil =>
      simp only [List.nil_append, runCsv_cons]
      have h1 : csvStep ⟨.fieldStart, [], fl, rs, ok⟩ ',' = ⟨.fieldStart, [], [] :: fl, rs, ok⟩ := rfl
      rw [h1]
    | cons c f' =>
      obtain ⟨h1, h2, h3⟩ := not_special_facts c (hall c (by simp))
      rw [List.cons_append, runCsv_cons]
      have hstep : csvStep ⟨.fieldStart, [], fl, rs, ok⟩ c = ⟨.unquoted, [c], fl, rs, ok⟩ := by
        simp only [csvStep]
        rw [if_neg h2, if_neg h1, if_neg h3]
      rw [hstep, run_unquoted f' (fun x hx => hall x (by simp [hx])) [c] fl rs ok, runCsv_cons]
      have hsep : csvStep ⟨.unquoted, f'.reverse ++ [c], fl, rs, ok⟩ ','
          = ⟨.fieldStart, [], (f'.reverse ++ [c]).reverse :: fl, rs, ok⟩ := rfl
      rw [hsep]
      simp

/-- Consuming one escaped field followed by a newline closes the current
record with that field as its last entry. -/
lemma run_field_nl (f : List Char) (fl : List (List Char))
    (rs : List (List (List Char))) (ok : Bool) (t : List Char) :
    runCsv ⟨.fieldStart, [], fl, rs, ok⟩ (escapeField f ++ '\n' :: t)
      = runCsv ⟨.fieldStart, [], [], (f :: fl).reverse :: rs, ok⟩ t := by
  by_cases hsp : f.any isSpecial = true
  · simp only [escapeField, if_pos hsp, List.cons_append, runCsv_cons]
    have h1 : csvStep ⟨.fieldStart, [], fl, rs, ok⟩ '"' = ⟨.quoted, [], fl, rs, ok⟩ := rfl
    rw [h1, List.append_assoc, List.singleton_append, run_quoted f [] fl rs ok, runCsv_cons]
    have h2 : csvStep ⟨.quoteSeen, f.reverse ++ [], fl, rs, ok⟩ '\n'
        = ⟨.fieldStart, [], [], ((f.reverse ++ []).reverse :: fl).reverse :: rs, ok⟩ := rfl
    rw [h2]
    simp
  · have hall : ∀ c ∈ f, isSpecial c = false := by
      have hsp' : f.any isSpecial = false := Bool.eq_false_iff.mpr hsp
      rw [List.any_eq_false] at hsp'
      intro c hc
      exact Bool.eq_false_iff.mpr (hsp' c hc)
    simp only [escapeField, if_neg hsp]
    cases f with
    | nil =>
      simp only [List.nil_append, runCsv_cons]
      have h1 : csvStep ⟨.fieldStart, [], fl, rs, ok⟩ '\n'
          = ⟨.fieldStart, [], [], ([] :: fl).reverse :: rs, ok⟩ := rfl
      rw [h1]
    | cons c f' =>
      obtain ⟨h1, h2, h3⟩ := not_special_facts c (hall c (by simp))
      rw [List.cons_append, runCsv_cons]
      have hstep : csvStep ⟨.fieldStart, [], fl, rs, ok⟩ c = ⟨.unquoted, [c], fl, rs, ok⟩ := by
        simp only [csvStep]
        rw [if_neg h2, if_neg h1, if_neg h3]
      rw [hstep, run_unquoted f' (fun x hx => hall x (by simp [hx])) [c] fl rs ok, runCsv_cons]
      have hsep : csvStep ⟨.unquoted, f'.reverse ++ [c], fl, rs, ok⟩ '\n'
          = ⟨.fieldStart, [], [], ((f'.reverse ++ [c]).reverse :: fl).reverse :: rs, ok⟩ := rfl
      rw [hsep]
      simp

/-- Consuming one whole serialized record appends it (after the fields
already accumulated) as a finished record. -/
lemma run_record (fs' : List (List Char)) :
    ∀ (f : List Char) (fl : List (List Char)) (rs : List (List (List Char)))
      (ok : Bool) (t : List Char),
      runCsv ⟨.fieldStart, [], fl, rs, ok⟩ (recordLine (f :: fs') ++ t)
        = runCsv ⟨.fieldStart, [], [], (fl.reverse ++ f :: fs') :: rs, ok⟩ t := by
  induction fs' with
  | nil =>
    intro f fl rs ok t
    simp only [recordLine]
    rw [List.append_assoc, List.singleton_append, run_field_nl]
    have hl : (f :: fl).reverse = fl.reverse ++ [f] := by simp
    rw [hl]
  | cons f2 fs'' ih =>
    intro f fl rs ok t
    simp only [recordLine]
    rw [List.append_assoc, List.cons_append, run_field_comma, ih f2 (f :: fl)]
    have hl : (f :: fl).reverse ++ f2 :: fs'' = fl.reverse ++ f :: f2 :: fs'' := by simp
    rw [hl]

/-- Consuming a whole serialized table stacks its records, in order. -/
lemma run_csv_all (rows : List (List (List Char))) (hrows : ∀ r ∈ rows, r ≠ []) :
    ∀ rs : List (List (List Char)),
      runCsv ⟨.fieldStart, [], [], rs, true⟩ (csvChars rows)
        = ⟨.fieldStart, [], [], rows.reverse ++ rs, true⟩ := by
  induction rows with
  | nil => intro rs; rfl
  | cons r rows' ih =>
    intro rs
    obtain ⟨f, fs', rfl⟩ := List.exists_cons_of_ne_nil (hrows r (by simp))
    simp only [csvChars]
    rw [run_record fs' f [] rs true, ih (fun x hx => hrows x (by simp [hx])) _]
    have hl : (f :: fs') :: rs = ([].reverse ++ f :: fs') :: rs := by simp
    simp

/-- Round trip of the CSV text of any table whose records are all
non-empty. -/
lemma csv_round_trip (rows : List (List (List Char))) (hrows : ∀ r ∈ rows, r ≠ []) :
    parseCsv (csvChars rows) = some rows := by
  have h := run_csv_all rows hrows []
  simp only [parseCsv, csvInit, runCsv] at h ⊢
  rw [h]
  simp

/-- C6: re-parsing the CSV export of the projected display table yields
exactly the header row `query_id,query_address,region,query_status,`
`priority_status,query_description,lat,lon` followed by the projected
rows, row for row and column for column, for every table and every
rendering of the numeric cells. -/
theorem c6_csv_round_trip (render : Rat → List Char) (t : List DisplayRow) :
    parseCsv (convert_df_to_csv render t).data
      = some (headerFields :: t.map (displayCells render)) := by
  have hrows : ∀ r ∈ headerFields :: t.map (displayCells render), r ≠ [] := by
    intro r hr
    rcases List.mem_cons.1 hr with rfl | hm
    · simp [headerFields]
    · obtain ⟨d, hd, rfl⟩ := List.mem_map.1 hm
      simp [displayCells]
  exact csv_round_trip _ hrows

end AreaMap
